import Mathlib

set_option maxHeartbeats 1000000
set_option maxRecDepth 10000

/-!
Verification of the opencode-embedded-skill-mcp plugin against its
natural-language specification.  The TypeScript sources are shallowly
embedded as Lean definitions: JSON-like runtime values become the
inductive `JsValue`, JavaScript truthiness and string coercion are made
explicit, and the fallible tool entry points return `Except`.
-/

/-- JSON-like runtime values, modelling the loosely-typed data that flows
through the plugin (parsed JSON, frontmatter values, tool arguments). -/
inductive JsValue where
  | str (s : String)
  | num (n : Int)
  | bool (b : Bool)
  | null
  | arr (elems : List JsValue)
  | obj (fields : List (String × JsValue))

/-- JavaScript truthiness for `JsValue` (objects and arrays are always
truthy; empty string, zero, `false` and `null` are falsy). -/
def jsTruthy : JsValue → Bool
  | .str s => s ≠ ""
  | .num n => n ≠ 0
  | .bool b => b
  | .null => false
  | .arr _ => true
  | .obj _ => true

/-- JavaScript `typeof v === "object"` for non-null parsed JSON values
(arrays and objects; `null` is excluded by the truthiness guards that
always accompany this test in the source). -/
def isObjType : JsValue → Bool
  | .arr _ => true
  | .obj _ => true
  | .null => true
  | _ => false

/-- JavaScript `key in v` for the string keys the plugin queries
(property-name keys are never numeric indices, so arrays answer false). -/
def hasKey (v : JsValue) (k : String) : Bool :=
  match v with
  | .obj fields => fields.any (fun p => p.1 == k)
  | _ => false

/-- JavaScript property access `v[k]`, defaulting to `null` when the key is
absent (callers always guard with `hasKey`). -/
def getKeyD (v : JsValue) (k : String) : JsValue :=
  match v with
  | .obj fields => ((fields.find? (fun p => p.1 == k)).map (fun p => p.2)).getD .null
  | _ => .null

/-- JavaScript `Object.values(v)`. -/
def jsValues : JsValue → List JsValue
  | .obj fields => fields.map (fun p => p.2)
  | .arr elems => elems
  | _ => []

mutual
/-- JavaScript `String(v)` coercion: strings pass through, numbers are
stringified; other shapes follow the JS conversion closely enough for the
command-normalization contract, which only constrains strings and numbers. -/
def jsToString : JsValue → String
  | .str s => s
  | .num n => toString n
  | .bool true => "true"
  | .bool false => "false"
  | .null => "null"
  | .arr xs => jsListToString xs
  | .obj _ => "[object Object]"

/-- Comma-joined stringification of array elements, as JS array coercion. -/
def jsListToString : List JsValue → String
  | [] => ""
  | [v] => jsToString v
  | v :: vs => jsToString v ++ "," ++ jsListToString vs
end

/-- JavaScript truthiness of an optional string parameter (`undefined` and
the empty string are falsy). -/
def optTruthy : Option String → Bool
  | some s => s ≠ ""
  | none => false

/-- JavaScript `Array.prototype.join(sep)`. -/
def joinWith (sep : String) : List String → String
  | [] => ""
  | [x] => x
  | x :: xs => x ++ sep ++ joinWith sep xs

/-- Substring containment, stated on the underlying character lists. -/
def StrContains (big small : String) : Prop :=
  small.data <:+: big.data

instance (big small : String) : Decidable (StrContains big small) :=
  List.decidableInfix small.data big.data

/-! Embedding of `src/tools/skill-mcp.ts`: the `skill_mcp` ("invoke") tool. -/

/-- A loaded skill as seen by the invoke tool: its name and its optional
MCP server configuration mapping (a JS object, modelled as an association
list with the object's key order). -/
structure LoadedSkill where
  name : String
  mcpConfig : Option (List (String × JsValue))

/-- The argument record of the `skill_mcp` tool (`mcp_name` required, the
rest optional strings). -/
structure InvokeArgs where
  mcp_name : String
  tool_name : Option String
  resource_name : Option String
  prompt_name : Option String
  arguments : Option String
  grep : Option String

/-- Kind of MCP operation selected by the invoke arguments. -/
inductive OpType where
  | tool
  | resource
  | prompt
deriving DecidableEq

/-- The `OperationInfo` record of `skill-mcp.ts`. -/
structure OperationInfo where
  type : OpType
  name : String
deriving DecidableEq

/-- The `operations` array built by `validateOperationParams`: one entry per
truthy selector, pushed in the order tool, resource, prompt. -/
def selectorOps (args : InvokeArgs) : List OperationInfo :=
  (if optTruthy args.tool_name then [⟨.tool, args.tool_name.getD ""⟩] else []) ++
  (if optTruthy args.resource_name then [⟨.resource, args.resource_name.getD ""⟩] else []) ++
  (if optTruthy args.prompt_name then [⟨.prompt, args.prompt_name.getD ""⟩] else [])

/-- The error message thrown when no operation selector is provided. -/
def missingOperationMsg : String :=
  "Missing operation. Exactly one of tool_name, resource_name, or prompt_name must be specified.\n\n" ++
  "Examples:\n" ++
  "  skill_mcp(mcp_name=\"sqlite\", tool_name=\"query\", arguments=\x27\x7b\"sql\": \"SELECT * FROM users\"\x7d\x27)\n" ++
  "  skill_mcp(mcp_name=\"memory\", resource_name=\"memory://notes\")\n" ++
  "  skill_mcp(mcp_name=\"helper\", prompt_name=\"summarize\", arguments=\x27\x7b\"text\": \"...\"\x7d\x27)"

/-- The `provided` fragments listed in the multiple-operations error:
the truthy selectors rendered as `name="value"`. -/
def providedParts (args : InvokeArgs) : List String :=
  (if optTruthy args.tool_name then ["tool_name=\"" ++ args.tool_name.getD "" ++ "\""] else []) ++
  (if optTruthy args.resource_name then ["resource_name=\"" ++ args.resource_name.getD "" ++ "\""] else []) ++
  (if optTruthy args.prompt_name then ["prompt_name=\"" ++ args.prompt_name.getD "" ++ "\""] else [])

/-- The error message thrown when more than one operation selector is
provided. -/
def multipleOperationsMsg (args : InvokeArgs) : String :=
  "Multiple operations specified. Exactly one of tool_name, resource_name, or prompt_name must be provided.\n\n" ++
  "Received: " ++ joinWith ", " (providedParts args) ++ "\n\n" ++
  "Use separate calls for each operation."

/-- `validateOperationParams` of `skill-mcp.ts`: exactly one truthy selector
yields that operation; zero or several yield the corresponding error. -/
def validateOperationParams (args : InvokeArgs) : Except String OperationInfo :=
  match selectorOps args with
  | [] => .error missingOperationMsg
  | [op] => .ok op
  | _ => .error (multipleOperationsMsg args)

/-- `findMcpServer` of `skill-mcp.ts`: linear scan over the loaded skills
for the first whose config mapping contains the server name. -/
def findMcpServer (mcpName : String) (skills : List LoadedSkill) :
    Option (LoadedSkill × JsValue) :=
  match skills with
  | [] => none
  | skill :: rest =>
    match skill.mcpConfig with
    | some cfg =>
      match cfg.lookup mcpName with
      | some config => some (skill, config)
      | none => findMcpServer mcpName rest
    | none => findMcpServer mcpName rest

/-- One line of the available-servers listing in the not-found error. -/
def availableLine (serverName skillName : String) : String :=
  "  - \"" ++ serverName ++ "\" from skill \"" ++ skillName ++ "\""

/-- The `mcps` array accumulated by `formatAvailableMcps`: one line per
(server, skill) pair across all loaded skills, in order. -/
def mcpLines (skills : List LoadedSkill) : List String :=
  (skills.map (fun skill =>
    match skill.mcpConfig with
    | some cfg => cfg.map (fun p => availableLine p.1 skill.name)
    | none => [])).flatten

/-- `formatAvailableMcps` of `skill-mcp.ts`. -/
def formatAvailableMcps (skills : List LoadedSkill) : String :=
  if (mcpLines skills).length > 0 then joinWith "\n" (mcpLines skills)
  else "  (none found)"

/-- The error message thrown when the requested server is in no skill. -/
def serverNotFoundMsg (mcpName : String) (skills : List LoadedSkill) : String :=
  "MCP server \"" ++ mcpName ++ "\" not found.\n\n" ++
  "Available MCP servers in loaded skills:\n" ++
  formatAvailableMcps skills ++ "\n\n" ++
  "Hint: Load the skill first using the \x27skill\x27 tool, then call skill_mcp."

/-- The `info` tuple passed to every Manager operation. -/
structure CallInfo where
  serverName : String
  skillName : String
  sessionID : String
deriving DecidableEq

/-- The `context` record passed to every Manager operation. -/
structure CallContext where
  config : JsValue
  skillName : String

/-- The Manager operation the invoke tool dispatches to (the observable
Manager activity of one `execute` call). -/
inductive ManagerCall where
  | callTool (info : CallInfo) (context : CallContext) (name : String)
      (args : List (String × JsValue))
  | readResource (info : CallInfo) (context : CallContext) (uri : String)
  | getPrompt (info : CallInfo) (context : CallContext) (name : String)
      (args : List (String × String))

/-- The `execute` body of the `skill_mcp` tool up to its Manager dispatch:
validation, then server lookup, then JSON-argument parsing, then the
selected Manager call.  `parseArgs` abstracts `parseArguments` (JSON.parse
of the optional argument string); an `.error` result models the thrown
user-facing error, an `.ok` result the Manager operation performed. -/
def executePlan (parseArgs : Option String → Except String (List (String × JsValue)))
    (sessionID : String) (args : InvokeArgs) (skills : List LoadedSkill) :
    Except String ManagerCall :=
  match validateOperationParams args with
  | .error e => .error e
  | .ok operation =>
    match findMcpServer args.mcp_name skills with
    | none => .error (serverNotFoundMsg args.mcp_name skills)
    | some (skill, config) =>
      let info : CallInfo := ⟨args.mcp_name, skill.name, sessionID⟩
      let context : CallContext := ⟨config, skill.name⟩
      match parseArgs args.arguments with
      | .error e => .error e
      | .ok parsedArgs =>
        match operation.type with
        | .tool => .ok (.callTool info context operation.name parsedArgs)
        | .resource => .ok (.readResource info context operation.name)
        | .prompt => .ok (.getPrompt info context operation.name
            (parsedArgs.map (fun p => (p.1, jsToString p.2))))

/-- The marker returned by the grep post-filter when nothing matched. -/
def grepNoMatchMsg (pat : String) : String :=
  "[grep] No lines matched pattern: " ++ pat

/-- `applyGrepFilter` of `skill-mcp.ts`.  `compile` abstracts
`new RegExp(pattern, "i")`: `none` models a constructor throw on an
invalid pattern, `some test` the case-insensitive per-line `regex.test`. -/
def applyGrepFilter (compile : String → Option (String → Bool))
    (output : String) (pat : Option String) : String :=
  match pat with
  | none => output
  | some p =>
    if p = "" then output
    else
      match compile p with
      | none => output
      | some test =>
        let filtered := (output.splitOn "\n").filter test
        if filtered.length > 0 then joinWith "\n" filtered
        else grepNoMatchMsg p

/-! Embedding of `src/tools/skill.ts`: the capability listing rendered when
a skill is loaded. -/

/-- Tool descriptor as rendered by the skill tool. -/
structure McpTool where
  name : String
  description : Option String
  inputSchema : Option JsValue

/-- Resource descriptor as rendered by the skill tool. -/
structure McpResource where
  uri : String

/-- Prompt descriptor as rendered by the skill tool. -/
structure McpPrompt where
  name : String

/-- The three discovery results for one server.  Each models one awaited
Manager promise: `.error` is a rejected promise, swallowed to an empty list
by the `.catch` attached to each call in the source. -/
structure ServerDiscovery where
  tools : Except String (List McpTool)
  resources : Except String (List McpResource)
  prompts : Except String (List McpPrompt)

/-- Outcome of discovery against one server: either an error escaped the
per-call catch (a synchronous throw, landing in the `try/catch`), or all
three calls settled (rejections already swallowed per call). -/
inductive ServerOutcome where
  | threw (msg : String)
  | settled (d : ServerDiscovery)

/-- The `.catch(() => [])` attached to each discovery call. -/
def catchEmpty : Except String (List α) → List α
  | .ok xs => xs
  | .error _ => []

/-- JavaScript `s.split("\n")[0]`. -/
def firstLine (s : String) : String :=
  (s.splitOn "\n").headD ""

/-- The lines pushed for one discovered tool. -/
def renderTool (stringify : Option JsValue → String) (t : McpTool) : List String :=
  ["#### `" ++ t.name ++ "`"] ++
  (if optTruthy t.description then [t.description.getD ""] else []) ++
  ["", "**inputSchema:**", "```json", stringify t.inputSchema, "```", ""]

/-- The lines pushed for one server of the skill listing: header, then the
discovered capabilities (or the failure note when the error escaped the
per-call catch, or the no-capabilities note when all lists are empty), then
the usage hint.  `stringify` abstracts `JSON.stringify(v, null, 2)`. -/
def renderServerSection (stringify : Option JsValue → String)
    (serverName : String) (outcome : ServerOutcome) : List String :=
  ["### " ++ serverName, ""] ++
  (match outcome with
   | .threw msg => ["*Failed to connect: " ++ firstLine msg ++ "*"]
   | .settled d =>
     let tools := catchEmpty d.tools
     let resources := catchEmpty d.resources
     let prompts := catchEmpty d.prompts
     (if tools.isEmpty then [] else
       ["**Tools:**", ""] ++ (tools.map (renderTool stringify)).flatten) ++
     (if resources.isEmpty then [] else
       ["**Resources**: " ++ joinWith ", " (resources.map McpResource.uri)]) ++
     (if prompts.isEmpty then [] else
       ["**Prompts**: " ++ joinWith ", " (prompts.map McpPrompt.name)]) ++
     (if tools.isEmpty && resources.isEmpty && prompts.isEmpty then
       ["*No capabilities discovered*"] else [])) ++
  ["", "Use `skill_mcp` tool with `mcp_name=\"" ++ serverName ++ "\"` to invoke.", ""]

/-- `formatMcpCapabilities` of `skill.ts`: `none` when the skill declares no
servers, otherwise the joined sections for every declared server, with
`discover` giving each server's discovery outcome. -/
def formatMcpCapabilities (stringify : Option JsValue → String)
    (mcpConfig : Option (List (String × JsValue)))
    (discover : String → ServerOutcome) : Option String :=
  match mcpConfig with
  | none => none
  | some cfg =>
    if cfg.isEmpty then none
    else some (joinWith "\n"
      (["", "## Available MCP Servers", ""] ++
       (cfg.map (fun p => renderServerSection stringify p.1 (discover p.1))).flatten))

/-! Embedding of `src/skill-loader.ts`: recognition of a sibling `mcp.json`
and its priority over frontmatter configuration. -/

/-- `loadMcpJsonFromDir` of `skill-loader.ts`, applied to the parsed JSON
value of the sibling file: the `mcpServers` wrapper, the `mcp` wrapper, or
a bare mapping where some value is an object with a `command` field. -/
def loadMcpJson (parsed : JsValue) : Option JsValue :=
  if jsTruthy parsed && isObjType parsed && hasKey parsed "mcpServers" &&
      jsTruthy (getKeyD parsed "mcpServers") then
    some (getKeyD parsed "mcpServers")
  else if jsTruthy parsed && isObjType parsed && hasKey parsed "mcp" &&
      jsTruthy (getKeyD parsed "mcp") then
    some (getKeyD parsed "mcp")
  else if jsTruthy parsed && isObjType parsed && !(hasKey parsed "mcpServers") &&
      !(hasKey parsed "mcp") then
    if (jsValues parsed).any (fun v => jsTruthy v && isObjType v && hasKey v "command") then
      some parsed
    else none
  else none

/-- `loadMcpJsonFromDir` lifted over the read/parse step: `none` input means
the file was missing, unreadable, or failed `JSON.parse`. -/
def loadMcpJsonFromDir (parsed : Option JsValue) : Option JsValue :=
  match parsed with
  | none => none
  | some v => loadMcpJson v

/-- JavaScript `a || b` on optional values (`undefined` and falsy values
fall through to the right operand). -/
def jsOr (a b : Option JsValue) : Option JsValue :=
  match a with
  | some v => if jsTruthy v then some v else b
  | none => b

/-- The `mcpConfig = mcpJsonMcp || frontmatterMcp` selection in
`loadSkillFromPath` (the sibling `mcp.json` takes priority). -/
def chooseMcpConfig (mcpJsonMcp frontmatterMcp : Option JsValue) : Option JsValue :=
  jsOr mcpJsonMcp frontmatterMcp

/-- Modelled from the spec: the claim's three recognized shapes, read as
inclusively as possible — an object carrying an `mcpServers` key, an object
carrying an `mcp` key, or a bare mapping whose values EACH are objects
containing a `command` field. -/
def specRecognizedShape (v : JsValue) : Bool :=
  match v with
  | .obj fields =>
    fields.any (fun p => p.1 == "mcpServers") ||
    fields.any (fun p => p.1 == "mcp") ||
    fields.all (fun p => match p.2 with
      | .obj inner => inner.any (fun q => q.1 == "command")
      | _ => false)
  | _ => false

/-! Embedding of the plugin entry point (session lifecycle handler). -/

/-- Session lifecycle notifications; both carry the subject session's id
(the handler reads it only for `created`). -/
inductive SessionEvent where
  | created (id : String)
  | deleted (id : String)

/-- Primitive side effects of the event handler, in execution order. -/
inductive SessionOp where
  | disconnect (id : String)
  | setCurrent (id : Option String)
deriving DecidableEq

/-- The plugin's `event` handler: `session.created` stores the event's id as
the current session; `session.deleted` — when a truthy session id is
tracked — calls `manager.disconnectSession` with the TRACKED id and then
clears it, and otherwise does nothing.  The returned list is the ordered
trace of side effects. -/
def handleEvent (currentSessionID : Option String) (ev : SessionEvent) : List SessionOp :=
  match ev with
  | .created id => [.setCurrent (some id)]
  | .deleted _ =>
    if optTruthy currentSessionID then
      [.disconnect (currentSessionID.getD ""), .setCurrent none]
    else []

/-- The `disconnectSession` invocations of a side-effect trace, in order. -/
def disconnectCalls (ops : List SessionOp) : List String :=
  ops.filterMap (fun op => match op with
    | .disconnect s => some s
    | _ => none)

/-! Embedding of `normalizeCommand` (`src/utils/env-vars.ts`). -/

/-- A server configuration as consumed by `normalizeCommand`: the `command`
field (any JSON value, or absent) and the optional `args` array. -/
structure McpServerConfig where
  command : Option JsValue
  args : Option (List JsValue)

/-- The `InvalidConfiguration` message, as asserted by the test file. -/
def invalidCommandMsg : String :=
  "Invalid MCP command configuration: command must be a string or array"

/-- Whether a JSON value is a string or an array. -/
def isStringOrArray : JsValue → Bool
  | .str _ => true
  | .arr _ => true
  | _ => false

/-- Modelled from the spec: `normalizeCommand` of `src/utils/env-vars.ts`,
whose implementation is not among the provided sources (only its test file
is).  Spec §4.1, rules in order: an array command takes its first element
(coerced to string) as the executable and the remaining elements (each
coerced to string) as the arguments, ignoring any `args` field; a non-empty
string command uses the `args` field (each element coerced), defaulting to
no arguments; anything else fails with `InvalidConfiguration`.  The spec
leaves the empty-array case unconstrained; the model coerces the missing
first element as JS `String(undefined)` would not apply, so it uses the
placeholder executable with no arguments. -/
def normalizeCommand (config : McpServerConfig) : Except String (String × List String) :=
  match config.command with
  | some (.arr (e :: rest)) => .ok (jsToString e, rest.map jsToString)
  | some (.arr []) => .ok ("undefined", [])
  | some (.str s) =>
    if s ≠ "" then .ok (s, (config.args.getD []).map jsToString)
    else .error invalidCommandMsg
  | _ => .error invalidCommandMsg

/-! Helper lemmas shared by the claim theorems. -/

/-- An element of a joined list occurs in the joined string. -/
theorem infix_joinWith (sep : String) {x : String} :
    ∀ {l : List String}, x ∈ l → x.data <:+: (joinWith sep l).data := by
  intro l
  induction l with
  | nil => intro hx; cases hx
  | cons y ys ih =>
    intro hx
    cases ys with
    | nil =>
      rcases List.mem_singleton.mp hx with rfl
      exact List.infix_refl _
    | cons z zs =>
      have hj : joinWith sep (y :: z :: zs) = y ++ sep ++ joinWith sep (z :: zs) := rfl
      rw [hj]
      rcases List.mem_cons.mp hx with rfl | hmem
      · refine ⟨[], (sep ++ joinWith sep (z :: zs)).data, ?_⟩
        simp [String.data_append, String.append_assoc]
      · have h2 := ih hmem
        have h3 : (joinWith sep (z :: zs)).data <:+:
            (y ++ sep ++ joinWith sep (z :: zs)).data := by
          rw [String.data_append]
          exact (List.suffix_append _ _).isInfix
        exact h2.trans h3

/-- Containment survives prepending text. -/
theorem strContains_append_left (a b s : String) (h : StrContains b s) :
    StrContains (a ++ b) s := by
  unfold StrContains at *
  rw [String.data_append]
  exact h.trans (List.suffix_append _ _).isInfix

/-- Containment survives appending text. -/
theorem strContains_append_right (a b s : String) (h : StrContains a s) :
    StrContains (a ++ b) s := by
  unfold StrContains at *
  rw [String.data_append]
  exact h.trans (List.prefix_append _ _).isInfix

/-- A string whose characters are nonempty stays nonempty under append. -/
theorem append_ne_empty_left (a b : String) (h : a.data ≠ []) : a ++ b ≠ "" := by
  intro hc
  apply h
  have hd := congrArg String.data hc
  rw [String.data_append] at hd
  exact (List.append_eq_nil.mp hd).1

/-- C3: for every config with array-form command, normalization takes the
stringified head as the executable and the element-wise stringified tail as
the argument list, in order, and any co-present `args` field is ignored
(the result does not depend on it). -/
theorem arrayCommandNormalization (e : JsValue) (rest : List JsValue)
    (a1 a2 : Option (List JsValue)) :
    normalizeCommand ⟨some (.arr (e :: rest)), a1⟩ =
      .ok (jsToString e, rest.map jsToString) ∧
    normalizeCommand ⟨some (.arr (e :: rest)), a1⟩ =
      normalizeCommand ⟨some (.arr (e :: rest)), a2⟩ :=
  ⟨rfl, rfl⟩

/-- C4: a config whose command is missing, null, or neither a string nor an
array fails normalization with the `InvalidConfiguration` message naming the
requirement, and never yields a normalized pair. -/
theorem invalidCommandNormalization (cmd : Option JsValue) (a : Option (List JsValue))
    (h : cmd = none ∨ ∃ v, cmd = some v ∧ isStringOrArray v = false) :
    normalizeCommand ⟨cmd, a⟩ = .error invalidCommandMsg := by
  rcases h with rfl | ⟨v, rfl, hv⟩
  · rfl
  · cases v with
    | str s => simp [isStringOrArray] at hv
    | arr xs => simp [isStringOrArray] at hv
    | num n => rfl
    | bool b => rfl
    | null => rfl
    | obj fields => rfl

/-- Witness for C4 at the missing-command config. -/
theorem invalidCommandNormalization_witness :
    normalizeCommand ⟨none, none⟩ = .error invalidCommandMsg :=
  invalidCommandNormalization none none (Or.inl rfl)

/-- C10: when the supplied grep pattern does not compile to a regular
expression, the post-filter returns the output unchanged. -/
theorem invalidGrepPatternUnchanged (compile : String → Option (String → Bool))
    (output p : String) (h : compile p = none) :
    applyGrepFilter compile output (some p) = output := by
  unfold applyGrepFilter
  by_cases hp : p = ""
  · simp [hp]
  · simp [hp, h]

/-- Witness for C10 at an unbalanced-bracket pattern. -/
theorem invalidGrepPatternUnchanged_witness :
    applyGrepFilter (fun _ => none) "a\nb" (some "[") = "a\nb" :=
  invalidGrepPatternUnchanged (fun _ => none) "a\nb" "[" rfl

/-- C7: with a compiled matcher, the post-filter keeps exactly the matching
lines in their original order (a sublist of the split lines, all matching,
rejoined); a pattern matching no line yields the explicit marker naming the
pattern, which is never the empty string; and an absent pattern leaves the
output unchanged. -/
theorem grepFilterCorrect (compile : String → Option (String → Bool))
    (output p : String) (test : String → Bool)
    (hc : compile p = some test) (hp : p ≠ "") :
    applyGrepFilter compile output none = output ∧
    (∀ l ∈ (output.splitOn "\n").filter test, test l = true) ∧
    ((output.splitOn "\n").filter test).Sublist (output.splitOn "\n") ∧
    ((output.splitOn "\n").filter test ≠ [] →
      applyGrepFilter compile output (some p) =
        joinWith "\n" ((output.splitOn "\n").filter test)) ∧
    ((output.splitOn "\n").filter test = [] →
      applyGrepFilter compile output (some p) = grepNoMatchMsg p ∧
      grepNoMatchMsg p ≠ "") := by
  refine ⟨rfl, ?_, List.filter_sublist _, ?_, ?_⟩
  · intro l hl
    exact (List.mem_filter.mp hl).2
  · intro hne
    unfold applyGrepFilter
    simp only [hp, if_false, hc]
    have hlen : 0 < ((output.splitOn "\n").filter test).length :=
      List.length_pos.mpr hne
    simp [hlen]
  · intro hnil
    constructor
    · unfold applyGrepFilter
      simp [hp, hc, hnil]
    · exact append_ne_empty_left _ _ (by decide)

/-- Witness for C7 at a two-line output with one matching line. -/
theorem grepFilterCorrect_witness :
    applyGrepFilter (fun _ => some (fun l => l == "beta")) "alpha\nbeta" none = "alpha\nbeta" ∧
    (∀ l ∈ (("alpha\nbeta").splitOn "\n").filter (fun l => l == "beta"),
      (fun l => l == "beta") l = true) ∧
    ((("alpha\nbeta").splitOn "\n").filter (fun l => l == "beta")).Sublist
      (("alpha\nbeta").splitOn "\n") ∧
    ((("alpha\nbeta").splitOn "\n").filter (fun l => l == "beta") ≠ [] →
      applyGrepFilter (fun _ => some (fun l => l == "beta")) "alpha\nbeta" (some "BETA") =
        joinWith "\n" ((("alpha\nbeta").splitOn "\n").filter (fun l => l == "beta"))) ∧
    ((("alpha\nbeta").splitOn "\n").filter (fun l => l == "beta") = [] →
      applyGrepFilter (fun _ => some (fun l => l == "beta")) "alpha\nbeta" (some "BETA") =
        grepNoMatchMsg "BETA" ∧ grepNoMatchMsg "BETA" ≠ "") :=
  grepFilterCorrect (fun _ => some (fun l => l == "beta")) "alpha\nbeta" "BETA"
    (fun l => l == "beta") rfl (by decide)

/-- C9: when every operation selector is absent or the empty string, the
empty strings are treated as absent: validation fails with the
missing-operation error and the invoke call dispatches no Manager
operation with an empty name. -/
theorem emptySelectorsTreatedAsAbsent (args : InvokeArgs)
    (ht : args.tool_name = none ∨ args.tool_name = some "")
    (hr : args.resource_name = none ∨ args.resource_name = some "")
    (hp : args.prompt_name = none ∨ args.prompt_name = some "") :
    validateOperationParams args = .error missingOperationMsg ∧
    ∀ parseArgs sid skills,
      executePlan parseArgs sid args skills = .error missingOperationMsg := by
  have hsel : selectorOps args = [] := by
    unfold selectorOps
    rcases ht with h1 | h1 <;> rcases hr with h2 | h2 <;> rcases hp with h3 | h3 <;>
      simp [h1, h2, h3, optTruthy]
  have hval : validateOperationParams args = .error missingOperationMsg := by
    unfold validateOperationParams
    rw [hsel]
  refine ⟨hval, ?_⟩
  intro parseArgs sid skills
  unfold executePlan
  rw [hval]

/-- Witness for C9 with empty-string tool and prompt selectors. -/
theorem emptySelectorsTreatedAsAbsent_witness :
    validateOperationParams ⟨"srv", some "", none, some "", none, none⟩ =
      .error missingOperationMsg ∧
    executePlan (fun _ => .ok []) "s1" ⟨"srv", some "", none, some "", none, none⟩ [] =
      .error missingOperationMsg :=
  ⟨(emptySelectorsTreatedAsAbsent ⟨"srv", some "", none, some "", none, none⟩
      (Or.inr rfl) (Or.inl rfl) (Or.inr rfl)).1,
   (emptySelectorsTreatedAsAbsent ⟨"srv", some "", none, some "", none, none⟩
      (Or.inr rfl) (Or.inl rfl) (Or.inr rfl)).2 (fun _ => .ok []) "s1" []⟩

/-- C8 counterexample: with session "A" tracked, a session-end notification
for a different session "B" makes the handler invoke `disconnectSession`
with the tracked id "A" — not with the ending session's id "B", which never
appears in the effect trace. -/
theorem sessionEndCounterexample :
    handleEvent (some "A") (.deleted "B") =
      [.disconnect "A", .setCurrent none] ∧
    SessionOp.disconnect "B" ∉ handleEvent (some "A") (.deleted "B") ∧
    disconnectCalls (handleEvent (some "A") (.deleted "B")) = ["A"] := by
  refine ⟨rfl, ?_, rfl⟩
  decide

/-- C8 amended: on every session-end notification received while a truthy
session id is tracked, the handler invokes `disconnectSession` exactly once
with the TRACKED active session id (the handler does not read the deleted
event's own id, so this equals the ending session's id only when the
tracked session is the one that ended), and the invocation precedes the
clearing of the tracked id; when the tracked id is already cleared (or
empty) `disconnectSession` is not invoked at all. -/
theorem sessionEndDisconnectsTracked (cur : Option String) (endedId : String) :
    (∀ s, cur = some s → s ≠ "" →
      handleEvent cur (.deleted endedId) = [.disconnect s, .setCurrent none]) ∧
    (optTruthy cur = false → handleEvent cur (.deleted endedId) = []) := by
  constructor
  · rintro s rfl hs
    simp [handleEvent, optTruthy, hs]
  · intro h
    simp [handleEvent, h]

/-- Witness for the amended C8 at a tracked and at a cleared session id. -/
theorem sessionEndDisconnectsTracked_witness :
    handleEvent (some "A") (.deleted "A") = [.disconnect "A", .setCurrent none] ∧
    handleEvent none (.deleted "A") = [] :=
  ⟨(sessionEndDisconnectsTracked (some "A") "A").1 "A" rfl (by decide),
   (sessionEndDisconnectsTracked none "A").2 rfl⟩

/-- C1: whenever the number of truthy operation selectors is not exactly
one, the invoke tool fails with a user-facing error that is the same for
every skill list, session id and argument parser — so the failure happens
before any skill lookup, connection creation or Manager activity — with the
missing-operation message in the zero case and a message opening with
"Multiple operations specified" in the multiple case. -/
theorem invokeSelectorValidation (args : InvokeArgs)
    (h : (selectorOps args).length ≠ 1) :
    ∃ msg, (∀ parseArgs sid skills,
        executePlan parseArgs sid args skills = .error msg) ∧
      (selectorOps args = [] → msg = missingOperationMsg) ∧
      (1 < (selectorOps args).length →
        ∃ tail, msg = "Multiple operations specified" ++ tail) := by
  match hsel : selectorOps args with
  | [] =>
    refine ⟨missingOperationMsg, ?_, fun _ => rfl, ?_⟩
    · intro parseArgs sid skills
      unfold executePlan validateOperationParams
      rw [hsel]
    · intro hlen
      simp at hlen
  | [op] =>
    rw [hsel] at h
    simp at h
  | op1 :: op2 :: rest =>
    refine ⟨multipleOperationsMsg args, ?_, ?_, ?_⟩
    · intro parseArgs sid skills
      unfold executePlan validateOperationParams
      rw [hsel]
    · intro hnil
      cases hnil
    · intro _
      refine ⟨". Exactly one of tool_name, resource_name, or prompt_name must be provided.\n\n" ++
        ("Received: " ++ joinWith ", " (providedParts args) ++ "\n\n" ++
         "Use separate calls for each operation."), ?_⟩
      unfold multipleOperationsMsg
      rw [← String.append_assoc, ← String.append_assoc, ← String.append_assoc,
        ← String.append_assoc]
      rfl

/-- Witness for C1 with both a tool and a resource selector supplied. -/
theorem invokeSelectorValidation_witness :
    (selectorOps ⟨"db", some "q", some "u", none, none, none⟩).length ≠ 1 ∧
    ∃ msg, (∀ parseArgs sid skills,
        executePlan parseArgs sid ⟨"db", some "q", some "u", none, none, none⟩ skills =
          .error msg) ∧
      (selectorOps ⟨"db", some "q", some "u", none, none, none⟩ = [] →
        msg = missingOperationMsg) ∧
      (1 < (selectorOps ⟨"db", some "q", some "u", none, none, none⟩).length →
        ∃ tail, msg = "Multiple operations specified" ++ tail) :=
  ⟨by decide,
   invokeSelectorValidation ⟨"db", some "q", some "u", none, none, none⟩ (by decide)⟩

/-- A server name absent from every skill's config is not found by the
linear scan. -/
theorem findMcpServer_eq_none (n : String) (skills : List LoadedSkill)
    (habs : ∀ sk ∈ skills, ∀ cfg, sk.mcpConfig = some cfg → cfg.lookup n = none) :
    findMcpServer n skills = none := by
  induction skills with
  | nil => rfl
  | cons sk rest ih =>
    have htail := ih (fun s hs cfg hcfg => habs s (List.mem_cons_of_mem _ hs) cfg hcfg)
    unfold findMcpServer
    cases hc : sk.mcpConfig with
    | none => simpa using htail
    | some cfg =>
      have hl := habs sk (List.mem_cons_self _ _) cfg hc
      simp [hl, htail]

/-- C2: when the requested server name is absent from the config of every
loaded skill (and validation passed), the invoke call fails — for every
argument parser and session id, so no Manager operation is dispatched —
with the not-found error, whose message contains the listing line for every
known (serverName, skillName) pair across the loaded skills, and contains
the "(none found)" marker when no skill declares any server. -/
theorem serverNotFoundError (args : InvokeArgs) (skills : List LoadedSkill)
    (op : OperationInfo) (hv : validateOperationParams args = .ok op)
    (habs : ∀ sk ∈ skills, ∀ cfg, sk.mcpConfig = some cfg →
      cfg.lookup args.mcp_name = none) :
    (∀ parseArgs sid, executePlan parseArgs sid args skills =
        .error (serverNotFoundMsg args.mcp_name skills)) ∧
    (∀ sk ∈ skills, ∀ cfg, sk.mcpConfig = some cfg → ∀ p ∈ cfg,
        StrContains (serverNotFoundMsg args.mcp_name skills)
          (availableLine p.1 sk.name)) ∧
    (mcpLines skills = [] →
        StrContains (serverNotFoundMsg args.mcp_name skills) "  (none found)") := by
  have hfind := findMcpServer_eq_none args.mcp_name skills habs
  refine ⟨?_, ?_, ?_⟩
  · intro parseArgs sid
    simp [executePlan, hv, hfind]
  · intro sk hsk cfg hcfg p hp
    have hline : availableLine p.1 sk.name ∈ mcpLines skills := by
      unfold mcpLines
      rw [List.mem_flatten]
      refine ⟨cfg.map (fun q => availableLine q.1 sk.name), ?_, ?_⟩
      · exact List.mem_map.mpr ⟨sk, hsk, by rw [hcfg]⟩
      · exact List.mem_map.mpr ⟨p, hp, rfl⟩
    have hmc : mcpLines skills ≠ [] := by
      intro hempty
      rw [hempty] at hline
      cases hline
    have hfam : StrContains (formatAvailableMcps skills)
        (availableLine p.1 sk.name) := by
      unfold formatAvailableMcps StrContains
      rw [if_pos (List.length_pos.mpr hmc)]
      exact infix_joinWith "\n" hline
    unfold serverNotFoundMsg
    apply strContains_append_right
    apply strContains_append_right
    apply strContains_append_left
    exact hfam
  · intro hempty
    have hfam : StrContains (formatAvailableMcps skills) "  (none found)" := by
      unfold formatAvailableMcps StrContains
      rw [hempty]
      simp
    unfold serverNotFoundMsg
    apply strContains_append_right
    apply strContains_append_right
    apply strContains_append_left
    exact hfam

/-- Witness for C2: a tool invocation against server "zzz" with one loaded
skill declaring only server "srv". -/
theorem serverNotFoundError_witness :
    (∀ parseArgs sid,
      executePlan parseArgs sid ⟨"zzz", some "t", none, none, none, none⟩
          [⟨"sk", some [("srv", JsValue.null)]⟩] =
        .error (serverNotFoundMsg "zzz" [⟨"sk", some [("srv", JsValue.null)]⟩])) ∧
    (∀ sk ∈ ([⟨"sk", some [("srv", JsValue.null)]⟩] : List LoadedSkill),
      ∀ cfg, sk.mcpConfig = some cfg → ∀ p ∈ cfg,
        StrContains (serverNotFoundMsg "zzz" [⟨"sk", some [("srv", JsValue.null)]⟩])
          (availableLine p.1 sk.name)) ∧
    (mcpLines [⟨"sk", some [("srv", JsValue.null)]⟩] = [] →
      StrContains (serverNotFoundMsg "zzz" [⟨"sk", some [("srv", JsValue.null)]⟩])
        "  (none found)") :=
  serverNotFoundError ⟨"zzz", some "t", none, none, none, none⟩
    [⟨"sk", some [("srv", JsValue.null)]⟩] ⟨.tool, "t"⟩ rfl
    (by
      intro sk hsk cfg hcfg
      rcases List.mem_singleton.mp hsk with rfl
      cases hcfg
      rfl)

/-- C5 counterexample: one declared server whose `listTools` discovery
rejects (error "boom") while `listResources` succeeds.  The per-call catch
swallows the failure into an empty tool list, so the rendered listing
contains no failure note of any kind — neither the "Failed to connect"
note nor the "No capabilities discovered" note — while the resources of
the very same server are listed. -/
theorem listingFailureNoteCounterexample :
    formatMcpCapabilities (fun _ => "") (some [("srv", JsValue.null)])
        (fun _ => .settled ⟨.error "boom", .ok [⟨"memory://x"⟩], .ok []⟩) =
      some ("\n## Available MCP Servers\n\n### srv\n\n**Resources**: memory://x\n\nUse `skill_mcp` tool with `mcp_name=\"srv\"` to invoke.\n") ∧
    ¬ StrContains
        "\n## Available MCP Servers\n\n### srv\n\n**Resources**: memory://x\n\nUse `skill_mcp` tool with `mcp_name=\"srv\"` to invoke.\n"
        "Failed to connect" ∧
    ¬ StrContains
        "\n## Available MCP Servers\n\n### srv\n\n**Resources**: memory://x\n\nUse `skill_mcp` tool with `mcp_name=\"srv\"` to invoke.\n"
        "No capabilities discovered" ∧
    StrContains
        "\n## Available MCP Servers\n\n### srv\n\n**Resources**: memory://x\n\nUse `skill_mcp` tool with `mcp_name=\"srv\"` to invoke.\n"
        "**Resources**: memory://x" := by
  refine ⟨rfl, ?_, ?_, ?_⟩ <;> decide

/-- C5 amended: for every nonempty server config the skill listing always
completes, producing output containing a section header for every declared
server; a server whose discovery error escapes the per-call catch (a
synchronous throw) renders the inline "Failed to connect" note, and a
server all of whose discovery calls come back empty (as every rejected
call does, swallowed to an empty list by its catch) renders the inline
"No capabilities discovered" note — so no per-server failure ever aborts
the listing, though a partially-failing server may render no note at all. -/
theorem listingToleratesDiscoveryFailure
    (stringify : Option JsValue → String) (cfg : List (String × JsValue))
    (discover : String → ServerOutcome) (hne : cfg.isEmpty = false) :
    ∃ out, formatMcpCapabilities stringify (some cfg) discover = some out ∧
      (∀ p ∈ cfg, StrContains out ("### " ++ p.1)) ∧
      (∀ p ∈ cfg, ∀ msg, discover p.1 = .threw msg →
        StrContains out ("*Failed to connect: " ++ firstLine msg ++ "*")) ∧
      (∀ p ∈ cfg, ∀ d, discover p.1 = .settled d →
        catchEmpty d.tools = [] → catchEmpty d.resources = [] →
        catchEmpty d.prompts = [] →
        StrContains out "*No capabilities discovered*") := by
  refine ⟨joinWith "\n" (["", "## Available MCP Servers", ""] ++
    (cfg.map (fun p => renderServerSection stringify p.1 (discover p.1))).flatten),
    ?_, ?_, ?_, ?_⟩
  · simp [formatMcpCapabilities, hne]
  · intro p hp
    apply infix_joinWith
    apply List.mem_append_right
    rw [List.mem_flatten]
    refine ⟨renderServerSection stringify p.1 (discover p.1),
      List.mem_map.mpr ⟨p, hp, rfl⟩, ?_⟩
    simp [renderServerSection]
  · intro p hp msg hthrew
    apply infix_joinWith
    apply List.mem_append_right
    rw [List.mem_flatten]
    refine ⟨renderServerSection stringify p.1 (discover p.1),
      List.mem_map.mpr ⟨p, hp, rfl⟩, ?_⟩
    simp [renderServerSection, hthrew]
  · intro p hp d hset h1 h2 h3
    apply infix_joinWith
    apply List.mem_append_right
    rw [List.mem_flatten]
    refine ⟨renderServerSection stringify p.1 (discover p.1),
      List.mem_map.mpr ⟨p, hp, rfl⟩, ?_⟩
    simp [renderServerSection, hset, h1, h2, h3]

/-- Witness for the amended C5: one server whose discovery throws. -/
theorem listingToleratesDiscoveryFailure_witness :
    (([("s", JsValue.null)] : List (String × JsValue)).isEmpty = false) ∧
    (∃ out, formatMcpCapabilities (fun _ => "") (some [("s", JsValue.null)])
        (fun _ => .threw "down") = some out ∧
      (∀ p ∈ ([("s", JsValue.null)] : List (String × JsValue)),
        StrContains out ("### " ++ p.1)) ∧
      (∀ p ∈ ([("s", JsValue.null)] : List (String × JsValue)), ∀ msg,
        (fun _ => ServerOutcome.threw "down") p.1 = .threw msg →
        StrContains out ("*Failed to connect: " ++ firstLine msg ++ "*")) ∧
      (∀ p ∈ ([("s", JsValue.null)] : List (String × JsValue)), ∀ d,
        (fun _ => ServerOutcome.threw "down") p.1 = .settled d →
        catchEmpty d.tools = [] → catchEmpty d.resources = [] →
        catchEmpty d.prompts = [] →
        StrContains out "*No capabilities discovered*")) :=
  ⟨rfl, listingToleratesDiscoveryFailure (fun _ => "") [("s", JsValue.null)]
    (fun _ => .threw "down") rfl⟩

/-- Modelled from the amended claim: a sibling configuration value is
recognized when it is a truthy (non-null) object that either carries an
`mcpServers` key with truthy value, carries an `mcp` key with truthy
value, or carries neither key and AT LEAST ONE of its values is an object
containing a `command` field. -/
def amendedRecognizedShape (v : JsValue) : Bool :=
  jsTruthy v && isObjType v &&
  ((hasKey v "mcpServers" && jsTruthy (getKeyD v "mcpServers")) ||
   (hasKey v "mcp" && jsTruthy (getKeyD v "mcp")) ||
   (!(hasKey v "mcpServers") && !(hasKey v "mcp") &&
     (jsValues v).any (fun w => jsTruthy w && isObjType w && hasKey w "command")))

/-- A bare mapping in which only ONE of the two values carries a `command`
field: the claim's "values each contain a command field" shape excludes
it, yet the loader recognizes it. -/
def bareMixedMapping : JsValue :=
  .obj [("a", .obj [("command", .str "x")]), ("b", .num 5)]

/-- C6 counterexample: `bareMixedMapping` is none of the claim's three
recognized shapes — in particular not a bare mapping whose values EACH
contain a `command` field — yet `loadMcpJsonFromDir` recognizes it and
returns the whole mapping. -/
theorem mcpJsonShapesCounterexample :
    loadMcpJson bareMixedMapping = some bareMixedMapping ∧
    specRecognizedShape bareMixedMapping = false :=
  ⟨rfl, rfl⟩

/-- A value returned by `loadMcpJson` is always truthy. -/
theorem loadMcpJson_truthy (parsed v : JsValue)
    (h : loadMcpJson parsed = some v) : jsTruthy v = true := by
  unfold loadMcpJson at h
  split_ifs at h with h1 h2 h3 h4
  · cases h
    simp only [Bool.and_eq_true] at h1
    exact h1.2
  · cases h
    simp only [Bool.and_eq_true] at h2
    exact h2.2
  · cases h
    simp only [Bool.and_eq_true] at h3
    exact h3.1.1.1

/-- C6 amended: the loader recognizes exactly the amended shapes — the
`mcpServers` wrapper with truthy value, the `mcp` wrapper with truthy
value, or a bare object with neither key at least one of whose values is
an object carrying a `command` field — and whenever the sibling `mcp.json`
yields a configuration it is the one used, the frontmatter configuration
being used only when the sibling file yields none. -/
theorem mcpJsonShapesAndPriority :
    (∀ v : JsValue, (loadMcpJson v).isSome = amendedRecognizedShape v) ∧
    (∀ p v fm, loadMcpJsonFromDir p = some v →
      chooseMcpConfig (loadMcpJsonFromDir p) fm = some v) ∧
    (∀ fm, chooseMcpConfig none fm = fm) := by
  refine ⟨?_, ?_, fun fm => rfl⟩
  · intro v
    unfold loadMcpJson amendedRecognizedShape
    cases ht : jsTruthy v <;> cases ho : isObjType v <;>
      cases hms : hasKey v "mcpServers" <;>
      cases hmv : jsTruthy (getKeyD v "mcpServers") <;>
      cases hm : hasKey v "mcp" <;> cases hmv2 : jsTruthy (getKeyD v "mcp") <;>
      cases ha : (jsValues v).any
        (fun w => jsTruthy w && isObjType w && hasKey w "command") <;>
      simp [ht, ho, hms, hmv, hm, hmv2, ha]
  · intro p v fm h
    rw [h]
    have htr : jsTruthy v = true := by
      cases p with
      | none => cases h
      | some w => exact loadMcpJson_truthy w v h
    unfold chooseMcpConfig jsOr
    simp [htr]

/-- Witness for the amended C6 at concrete shapes: a recognized
`mcpServers` wrapper, its priority over a frontmatter config, and the
frontmatter fallback. -/
theorem mcpJsonShapesAndPriority_witness :
    (loadMcpJson (.obj [("mcpServers", .obj [("s", .null)])])).isSome =
      amendedRecognizedShape (.obj [("mcpServers", .obj [("s", .null)])]) ∧
    chooseMcpConfig
        (loadMcpJsonFromDir (some (.obj [("mcpServers", .obj [("s", .null)])])))
        (some (.obj [("fm", .null)])) =
      some (.obj [("s", .null)]) ∧
    chooseMcpConfig none (some (.obj [("fm", .null)])) =
      some (.obj [("fm", .null)]) :=
  ⟨mcpJsonShapesAndPriority.1 (.obj [("mcpServers", .obj [("s", .null)])]),
   mcpJsonShapesAndPriority.2.1 (some (.obj [("mcpServers", .obj [("s", .null)])]))
     (.obj [("s", .null)]) (some (.obj [("fm", .null)])) rfl,
   mcpJsonShapesAndPriority.2.2 (some (.obj [("fm", .null)]))⟩
